import Mathlib

/-!
Verification of the tenant bucket store (`tenant/storage_bucket.go`).

The store keeps each bucket in two keyspaces of a caller-supplied
transaction: a primary table `bucketsv1` keyed by the encoded bucket ID,
and an index `bucketindexv1` keyed by the concatenation of the encoded
organization ID and the bucket name, whose value is the encoded bucket ID.

The shallow embedding below models:
  - identifiers as natural numbers (Go `influxdb.ID`, a `uint64`; `Valid`
    is `id != 0` and `Encode` fails exactly on the zero ID, producing a
    fixed-width big-endian byte sequence);
  - keys and encoded identifiers as lists of naturals (byte sequences);
  - the two keyspaces as association lists inside a `Tx` record, together
    with fault sets modelling keys whose `Get` fails with a non-NotFound
    storage error (the engine may fail a read; writes are modelled as
    always succeeding);
  - the record codec as a constructor `KVVal.doc` holding the bucket
    itself (the Go code stores a self-describing JSON document; decoding
    anything else is a corrupt record);
  - every store operation as a Lean function; mutating operations return
    the transaction state paired with the result so that partial writes
    before an error are observable.
-/

namespace BucketStore

/-- Bucket type enum: Go `influxdb.BucketTypeUser` / `BucketTypeSystem`. -/
inductive BucketType where
  | user
  | system
deriving DecidableEq, Repr

/-- The stored bucket entity (`influxdb.Bucket`): ID, OrgID, Type, Name,
Description, RetentionPeriod and the CRUD timestamps. -/
structure Bucket where
  id : Nat
  orgID : Nat
  btype : BucketType
  name : String
  description : String
  retentionPeriod : Int
  createdAt : Nat
  updatedAt : Nat
deriving DecidableEq, Repr

/-- A value stored in a keyspace: either a marshalled bucket document
(primary table) or a raw byte sequence (index values: encoded IDs). -/
inductive KVVal where
  | doc (b : Bucket)
  | raw (bs : List Nat)
deriving DecidableEq, Repr

/-- The error taxonomy of the store, one constructor per distinct error
value/kind produced by `storage_bucket.go`. -/
inductive Err where
  /-- `influxdb.EInvalid` wrapping an identifier encode failure
  (`InvalidOrgIDError`, `bucketIndexKey`'s error). -/
  | invalid
  /-- `ErrNameisEmpty`. -/
  | nameEmpty
  /-- `BucketAlreadyExistsError(name)`. -/
  | alreadyExists (n : String)
  /-- `ErrBucketNotFound`. -/
  | notFound
  /-- `ErrBucketNotFoundByName(name)`. -/
  | notFoundByName (n : String)
  /-- `ErrBucketNameNotUnique`. -/
  | nameNotUnique
  /-- `invalidBucketListRequest`. -/
  | invalidRequest
  /-- `errRenameSystemBucket`. -/
  | forbidden
  /-- `ErrCorruptBucket`. -/
  | corrupt
  /-- `ErrInternalServiceError`. -/
  | internalErr
  /-- a raw storage error surfaced unmodified (`GetBucketByName`'s
  non-NotFound index error). -/
  | storageErr
  /-- a raw `id.Decode` failure wrapped in an uncoded `influxdb.Error`. -/
  | idDecodeErr
deriving DecidableEq, Repr

/-- Result of a raw keyspace `Get`: found, not found, or some other
storage failure. -/
inductive KvErr where
  | notFound
  | fault
deriving DecidableEq, Repr

abbrev Key := List Nat

/-- `w` big-endian base-256 digits of `n` (the fixed-width identifier
encoding; Go `influxdb.ID.Encode`'s output, abstracted to one byte per
position). -/
def natToBytes : Nat → Nat → List Nat
  | 0, _ => []
  | w + 1, n => (n / 256 ^ w % 256) :: natToBytes w n

/-- Reassemble a big-endian byte sequence into a natural number. -/
def bytesToNat (bs : List Nat) : Nat :=
  bs.foldl (fun a d => a * 256 + d) 0

/-- Width of an encoded identifier (`influxdb.IDLength`). -/
def IDLength : Nat := 8

/-- Go `influxdb.ID.Valid`: the zero ID is invalid. -/
def idValid (id : Nat) : Bool := id ≠ 0

/-- Go `influxdb.ID.Encode`: fails exactly on an invalid (zero) ID,
otherwise the fixed-width byte encoding. -/
def idEncode (id : Nat) : Option Key :=
  if id = 0 then none else some (natToBytes IDLength id)

/-- Go `influxdb.ID.Decode`: requires exactly `IDLength` bytes. -/
def idDecode (bs : Key) : Option Nat :=
  if bs.length = IDLength then some (bytesToNat bs) else none

/-- The serialized bytes of a bucket name (order- and
equality-preserving model of the Go string bytes). -/
def strBytes (s : String) : List Nat :=
  s.data.map Char.toNat

/-- The composite index key: encoded organization ID followed by the
name bytes (the total function; `bucketIndexKey` below adds the failure
on an invalid organization ID exactly as the source does). -/
def ikeyB (o : Nat) (n : String) : Key :=
  natToBytes IDLength o ++ strBytes n

/-- `bucketIndexKey(o, name)` from the source: encode the organization
ID (failing with an `EInvalid` error) and append the name bytes. -/
def bucketIndexKey (o : Nat) (name : String) : Except Err Key :=
  match idEncode o with
  | none => .error .invalid
  | some orgID => .ok (orgID ++ strBytes name)

/-! ### The keyspace model -/

/-- First value stored under key `k`, if any. -/
def kvFind (l : List (Key × KVVal)) (k : Key) : Option KVVal :=
  match l with
  | [] => none
  | p :: rest => if p.1 = k then some p.2 else kvFind rest k

/-- Remove every entry with key `k`. -/
def kvDelete (l : List (Key × KVVal)) (k : Key) : List (Key × KVVal) :=
  match l with
  | [] => []
  | p :: rest => if p.1 = k then kvDelete rest k else p :: kvDelete rest k

/-- Overwrite: store `v` under `k`, dropping any previous entry. -/
def kvPut (l : List (Key × KVVal)) (k : Key) (v : KVVal) : List (Key × KVVal) :=
  (k, v) :: kvDelete l k

/-- A raw keyspace `Get`: keys in the fault set fail with a non-NotFound
storage error, otherwise lookup. -/
def kvGet (l : List (Key × KVVal)) (faults : List Key) (k : Key) : Except KvErr KVVal :=
  if k ∈ faults then .error .fault
  else
    match kvFind l k with
    | some v => .ok v
    | none => .error .notFound

/-- The caller-supplied transaction: the two named keyspaces
(`bucketsv1` primary table and `bucketindexv1` index) plus the fault
sets of keys whose reads fail with a storage error. -/
structure Tx where
  buckets : List (Key × KVVal)
  index : List (Key × KVVal)
  bFaults : List Key
  iFaults : List Key
deriving DecidableEq, Repr

/-! ### Cursor model

A forward cursor iterates a keyspace in ascending lexicographic key
order; `hasPfx` models `kv.WithCursorPrefix`, which restricts the
iteration to keys extending the seek prefix. -/

/-- Lexicographic order on byte sequences. -/
def keyLe : Key → Key → Bool
  | [], _ => true
  | _ :: _, [] => false
  | x :: xs, y :: ys => if x < y then true else if y < x then false else keyLe xs ys

/-- `pfx` is an initial segment of `k`. -/
def hasPfx (pfx k : Key) : Bool :=
  k.take pfx.length = pfx

/-- Insert an entry into a key-sorted entry list. -/
def entInsert (p : Key × KVVal) : List (Key × KVVal) → List (Key × KVVal)
  | [] => [p]
  | q :: rest => if keyLe p.1 q.1 then p :: q :: rest else q :: entInsert p rest

/-- Sort entries by ascending key (the order a forward cursor yields). -/
def entSort : List (Key × KVVal) → List (Key × KVVal)
  | [] => []
  | p :: rest => entInsert p (entSort rest)

/-- The entries a prefix-restricted forward cursor yields, in order. -/
def cursorEntries (l : List (Key × KVVal)) (pfx : Key) : List (Key × KVVal) :=
  (entSort l).filter (fun p => hasPfx pfx p.1)

/-- The entries a full-table forward cursor yields, in the requested
direction. -/
def cursorAll (l : List (Key × KVVal)) (descending : Bool) : List (Key × KVVal) :=
  if descending then (entSort l).reverse else entSort l

/-! ### Codec -/

/-- `unmarshalBucket`: decoding anything that is not a stored document
fails with a corrupt-record error. -/
def unmarshalBucket (v : KVVal) : Except Err Bucket :=
  match v with
  | .doc b => .ok b
  | .raw _ => .error .corrupt

/-- `marshalBucket`: store the record as a self-describing document. -/
def marshalBucket (b : Bucket) : KVVal := .doc b

/-! ### Fixed system buckets

Modelled from the spec: the two well-known system-bucket names, their
fixed globally-reserved identifiers and fixed retention periods are
declared in the `influxdb` root package, which is outside the provided
sources; the spec fixes their shape (two reserved names mapping to
fixed, non-persisted records with fixed identifiers and retention
periods, scoped to the requested organization). -/

/-- Modelled from the spec: the reserved task-log bucket name. -/
def TasksSystemBucketName : String := "_tasks"

/-- Modelled from the spec: the reserved monitoring bucket name. -/
def MonitoringSystemBucketName : String := "_monitoring"

/-- Modelled from the spec: the fixed, globally-reserved identifier of
the tasks system bucket. -/
def TasksSystemBucketID : Nat := 10

/-- Modelled from the spec: the fixed, globally-reserved identifier of
the monitoring system bucket. -/
def MonitoringSystemBucketID : Nat := 11

/-- Modelled from the spec: the fixed retention period of the tasks
system bucket (72h in nanoseconds). -/
def TasksSystemBucketRetention : Int := 259200000000000

/-- Modelled from the spec: the fixed retention period of the
monitoring system bucket (168h in nanoseconds). -/
def MonitoringSystemBucketRetention : Int := 604800000000000

/-- The synthesized tasks system bucket returned on an index miss
(source lines 122-130), scoped to the requested organization. -/
def tasksSystemBucket (orgID : Nat) : Bucket :=
  { id := TasksSystemBucketID
    orgID := orgID
    btype := .system
    name := TasksSystemBucketName
    description := "System bucket for task logs"
    retentionPeriod := TasksSystemBucketRetention
    createdAt := 0
    updatedAt := 0 }

/-- The synthesized monitoring system bucket returned on an index miss
(source lines 131-139), scoped to the requested organization. -/
def monitoringSystemBucket (orgID : Nat) : Bucket :=
  { id := MonitoringSystemBucketID
    orgID := orgID
    btype := .system
    name := MonitoringSystemBucketName
    description := "System bucket for monitoring logs"
    retentionPeriod := MonitoringSystemBucketRetention
    createdAt := 0
    updatedAt := 0 }

/-- Modelled from the spec: the standard page size used when no find
options are supplied (`influxdb.DefaultPageSize`, declared outside the
provided sources). -/
def DefaultPageSize : Nat := 20

/-- Modelled from the spec: the maximum page size to which a zero or
oversized limit is clamped (`influxdb.MaxPageSize`, declared outside
the provided sources). -/
def MaxPageSize : Nat := 100

/-! ### Store operations -/

/-- `uniqueBucketName(oid, uname)`: build the composite key, reject an
empty key, and probe the index; not-found means unique, a hit means the
name is taken, anything else is an internal error. -/
def uniqueBucketName (tx : Tx) (oid : Nat) (uname : String) : Except Err Unit :=
  match bucketIndexKey oid uname with
  | .error e => .error e
  | .ok key =>
    if key.length = 0 then .error .nameEmpty
    else
      match kvGet tx.index tx.iFaults key with
      | .error .notFound => .ok ()
      | .ok _ => .error (.alreadyExists uname)
      | .error .fault => .error .internalErr

/-- `GetBucket(id)`: read the primary table by the encoded ID. -/
def GetBucket (tx : Tx) (id : Nat) : Except Err Bucket :=
  match idEncode id with
  | none => .error .invalid
  | some encodedID =>
    match kvGet tx.buckets tx.bFaults encodedID with
    | .error .notFound => .error .notFound
    | .error .fault => .error .internalErr
    | .ok v => unmarshalBucket v

/-- `GetBucketByName(orgID, n)`: probe the index; on a hit decode the
stored ID and delegate to `GetBucket`; on a miss synthesize one of the
two well-known system buckets or fail by name; surface any other index
error unmodified. -/
def GetBucketByName (tx : Tx) (orgID : Nat) (n : String) : Except Err Bucket :=
  match bucketIndexKey orgID n with
  | .error e => .error e
  | .ok key =>
    match kvGet tx.index tx.iFaults key with
    | .error .notFound =>
      if n = TasksSystemBucketName then .ok (tasksSystemBucket orgID)
      else if n = MonitoringSystemBucketName then .ok (monitoringSystemBucket orgID)
      else .error (.notFoundByName n)
    | .error .fault => .error .storageErr
    | .ok buf =>
      match buf with
      | .doc _ => .error .idDecodeErr
      | .raw bs =>
        match idDecode bs with
        | none => .error .idDecodeErr
        | some id => GetBucket tx id

/-- The list filter: optional name, optional organization ID. -/
structure BucketFilter where
  name : Option String
  organizationID : Option Nat
deriving DecidableEq, Repr

/-- `influxdb.FindOptions` as consumed by the store: limit, offset and
scan direction. -/
structure FindOptions where
  limit : Nat
  offset : Nat
  descending : Bool
deriving DecidableEq, Repr

/-- The collection loop of `listBucketsByOrg`: skip the first `offset`
entries, decode each index value as an ID, fetch the record, stop at
`limit` results. -/
def listLoopOrg (tx : Tx) (o : FindOptions) :
    List (Key × KVVal) → Nat → List Bucket → Except Err (List Bucket)
  | [], _, bs => .ok bs
  | (_, v) :: rest, count, bs =>
    if o.offset ≠ 0 ∧ count < o.offset then listLoopOrg tx o rest (count + 1) bs
    else
      match v with
      | .doc _ => .error .idDecodeErr
      | .raw idBytes =>
        match idDecode idBytes with
        | none => .error .idDecodeErr
        | some id =>
          match GetBucket tx id with
          | .error e => .error e
          | .ok b =>
            let bs := bs ++ [b]
            if o.limit ≤ bs.length then .ok bs else listLoopOrg tx o rest count bs

/-- `listBucketsByOrg(orgID, o)`: prefix-seek the index with the
organization prefix and collect. The source opens the cursor with only
`kv.WithCursorPrefix(key)` — no direction option — so the scan is
always ascending. -/
def listBucketsByOrg (tx : Tx) (orgID : Nat) (o : FindOptions) : Except Err (List Bucket) :=
  match bucketIndexKey orgID "" with
  | .error _ => .error .invalid
  | .ok key => listLoopOrg tx o (cursorEntries tx.index key) 0 []

/-- The collection loop of the primary-table scan in `ListBuckets`:
skip the first `offset` records, decode, apply the exact-name filter,
stop at `limit` collected results. -/
def listLoopAll (filterName : Option String) (o : FindOptions) :
    List (Key × KVVal) → Nat → List Bucket → Except Err (List Bucket)
  | [], _, bs => .ok bs
  | (_, v) :: rest, count, bs =>
    if o.offset ≠ 0 ∧ count < o.offset then listLoopAll filterName o rest (count + 1) bs
    else
      match unmarshalBucket v with
      | .error e => .error e
      | .ok b =>
        let bs := if filterName = none ∨ filterName = some b.name then bs ++ [b] else bs
        if o.limit ≤ bs.length then .ok bs else listLoopAll filterName o rest count bs

/-- `ListBuckets(filter, opt...)`: reject a name-and-valid-organization
filter combination, default and clamp the options, then either scan the
index by organization or scan the primary table. -/
def ListBuckets (tx : Tx) (filter : BucketFilter) (opt : List FindOptions) :
    Except Err (List Bucket) :=
  if (match filter.organizationID with
      | some o => idValid o
      | none => false) = true ∧ filter.name ≠ none then
    .error .invalidRequest
  else
    let opts := if opt = [] then [{ limit := DefaultPageSize, offset := 0, descending := false }]
                else opt
    let o := opts.headD { limit := DefaultPageSize, offset := 0, descending := false }
    let o := if MaxPageSize < o.limit ∨ o.limit = 0 then { o with limit := MaxPageSize } else o
    match filter.organizationID with
    | some orgID => listBucketsByOrg tx orgID o
    | none => listLoopAll filter.name o (cursorAll tx.buckets o.descending) 0 []

/-- `CreateBucket(bucket)` after identifier resolution: encode the ID,
verify name uniqueness, stamp the CRUD timestamps, then write the index
entry followed by the primary record. -/
def createWithID (now : Nat) (tx : Tx) (bucket : Bucket) : Tx × Except Err Bucket :=
  match idEncode bucket.id with
  | none => (tx, .error .invalid)
  | some encodedID =>
    match uniqueBucketName tx bucket.orgID bucket.name with
    | .error e => (tx, .error e)
    | .ok _ =>
      let bucket := { bucket with createdAt := now, updatedAt := now }
      match bucketIndexKey bucket.orgID bucket.name with
      | .error e => (tx, .error e)
      | .ok ikey =>
        let tx1 := { tx with index := kvPut tx.index ikey (.raw encodedID) }
        let tx2 := { tx1 with buckets := kvPut tx1.buckets encodedID (marshalBucket bucket) }
        (tx2, .ok bucket)

/-- `CreateBucket(bucket)`: when the caller supplies no valid ID the
identifier generator's output `gid` is used (Modelled from the spec:
`generateSafeID` lives outside the provided sources; the spec's
Identifier Generator is an external capability producing identifiers
guaranteed unique within the namespace, so its output is threaded in as
a parameter). -/
def CreateBucket (now gid : Nat) (tx : Tx) (bucket : Bucket) : Tx × Except Err Bucket :=
  createWithID now tx (if idValid bucket.id then bucket else { bucket with id := gid })

/-- The update patch (`influxdb.BucketUpdate`): optional new name,
description and retention period. -/
structure BucketUpdate where
  name : Option String
  description : Option String
  retentionPeriod : Option Int
deriving DecidableEq, Repr

/-- Step 4 of `UpdateBucket`: apply the description and retention
patches when present, leaving unset fields untouched. -/
def patchBucket (bucket : Bucket) (upd : BucketUpdate) : Bucket :=
  let bucket := match upd.description with
    | some d => { bucket with description := d }
    | none => bucket
  match upd.retentionPeriod with
  | some r => { bucket with retentionPeriod := r }
  | none => bucket

/-- Steps 4-5 of `UpdateBucket`: apply the remaining patches and
persist the primary record. -/
def updateFinish (tx : Tx) (encodedID : Key) (bucket : Bucket) (upd : BucketUpdate) :
    Tx × Except Err Bucket :=
  ({ tx with buckets := kvPut tx.buckets encodedID (marshalBucket (patchBucket bucket upd)) },
   .ok (patchBucket bucket upd))

/-- Step 3 of `UpdateBucket`, the name-change branch: reject a
System-type bucket, collapse any uniqueness-probe failure into the
name-not-unique error, delete the old index entry, insert the new one
under the same encoded ID, then finish. `bucket` is the loaded record
with `UpdatedAt` already refreshed. -/
def updateRename (tx : Tx) (encodedID : Key) (bucket : Bucket) (newName : String)
    (upd : BucketUpdate) : Tx × Except Err Bucket :=
  if bucket.btype = .system then (tx, .error .forbidden)
  else
    match uniqueBucketName tx bucket.orgID newName with
    | .error _ => (tx, .error .nameNotUnique)
    | .ok _ =>
      match bucketIndexKey bucket.orgID bucket.name with
      | .error e => (tx, .error e)
      | .ok oldIkey =>
        match bucketIndexKey bucket.orgID newName with
        | .error e => ({ tx with index := kvDelete tx.index oldIkey }, .error e)
        | .ok newIkey =>
          updateFinish
            { tx with index := kvPut (kvDelete tx.index oldIkey) newIkey (.raw encodedID) }
            encodedID { bucket with name := newName } upd

/-- `UpdateBucket(id, upd)`: load the record, refresh `UpdatedAt`; on a
name change run the rename branch; finally apply the remaining patches
and persist. -/
def UpdateBucket (now : Nat) (tx : Tx) (id : Nat) (upd : BucketUpdate) :
    Tx × Except Err Bucket :=
  match idEncode id with
  | none => (tx, .error .invalid)
  | some encodedID =>
    match GetBucket tx id with
    | .error e => (tx, .error e)
    | .ok bucket0 =>
      match upd.name with
      | some newName =>
        if bucket0.name ≠ newName then
          updateRename tx encodedID { bucket0 with updatedAt := now } newName upd
        else updateFinish tx encodedID { bucket0 with updatedAt := now } upd
      | none => updateFinish tx encodedID { bucket0 with updatedAt := now } upd

/-- `DeleteBucket(id)`: load the record to recover the index key, then
delete the index entry and the primary record. -/
def DeleteBucket (tx : Tx) (id : Nat) : Tx × Except Err Unit :=
  match GetBucket tx id with
  | .error e => (tx, .error e)
  | .ok bucket =>
    match idEncode id with
    | none => (tx, .error .invalid)
    | some encodedID =>
      match bucketIndexKey bucket.orgID bucket.name with
      | .error e => (tx, .error e)
      | .ok ikey =>
        let tx1 := { tx with index := kvDelete tx.index ikey }
        let tx2 := { tx1 with buckets := kvDelete tx1.buckets encodedID }
        (tx2, .ok ())

/-! ### The bijection invariant I1

For every primary record there is exactly one index entry under the
record's current `(OrgID, Name)` pointing back at the record's key, and
every index entry points at a primary record whose current
`(OrgID, Name)` spells the entry's key. -/

/-- A primary-table entry is well formed and has its index entry: the
value is a document, the entry's key is the record's encoded ID, the
identifiers are valid, and the index maps the record's composite key to
that primary key. -/
def primEntryOkB (tx : Tx) (p : Key × KVVal) : Bool :=
  match p.2 with
  | .doc b =>
    decide (b.id ≠ 0) && decide (b.orgID ≠ 0) &&
    decide (p.1 = natToBytes IDLength b.id) &&
    decide (kvFind tx.index (ikeyB b.orgID b.name) = some (.raw p.1))
  | .raw _ => false

/-- An index entry points at a stored record whose current composite
key is the entry's key. -/
def idxEntryOkB (tx : Tx) (q : Key × KVVal) : Bool :=
  match q.2 with
  | .doc _ => false
  | .raw ek =>
    match kvFind tx.buckets ek with
    | some (.doc b) => decide (q.1 = ikeyB b.orgID b.name)
    | _ => false

/-- Invariant I1: keys are unique in each table, every primary record
has its (unique) index entry, and every index entry resolves back to
its record. -/
def I1 (tx : Tx) : Prop :=
  (tx.buckets.map Prod.fst).Nodup ∧ (tx.index.map Prod.fst).Nodup ∧
  (∀ p ∈ tx.buckets, primEntryOkB tx p = true) ∧
  (∀ q ∈ tx.index, idxEntryOkB tx q = true)

instance (tx : Tx) : Decidable (I1 tx) := by
  unfold I1
  infer_instance

/-! ### Keyspace lemmas -/

theorem kvFind_kvDelete (l : List (Key × KVVal)) (k k' : Key) :
    kvFind (kvDelete l k) k' = if k' = k then none else kvFind l k' := by
  induction l with
  | nil => simp [kvDelete, kvFind]
  | cons p rest ih =>
    simp only [kvDelete]
    by_cases h1 : p.1 = k
    · rw [if_pos h1, ih]
      by_cases h2 : k' = k
      · rw [if_pos h2, if_pos h2]
      · rw [if_neg h2, if_neg h2]
        simp only [kvFind]
        rw [if_neg (fun hc : p.1 = k' => h2 ((hc.symm.trans h1)))]
    · rw [if_neg h1]
      simp only [kvFind]
      by_cases h3 : p.1 = k'
      · rw [if_pos h3, if_neg (fun h2 : k' = k => h1 (h3.trans h2)), if_pos h3]
      · rw [if_neg h3, ih]
        by_cases h2 : k' = k
        · rw [if_pos h2, if_pos h2]
        · rw [if_neg h2, if_neg h2, if_neg h3]

theorem kvFind_kvPut (l : List (Key × KVVal)) (k : Key) (v : KVVal) (k' : Key) :
    kvFind (kvPut l k v) k' = if k' = k then some v else kvFind l k' := by
  by_cases h : k' = k
  · subst h
    simp [kvPut, kvFind]
  · simp [kvPut, kvFind, kvFind_kvDelete, h, Ne.symm h]

theorem mem_kvDelete {l : List (Key × KVVal)} {k : Key} {p : Key × KVVal} :
    p ∈ kvDelete l k ↔ p ∈ l ∧ p.1 ≠ k := by
  induction l with
  | nil => simp [kvDelete]
  | cons q rest ih =>
    simp only [kvDelete]
    by_cases h : q.1 = k
    · rw [if_pos h, ih]
      simp only [List.mem_cons]
      constructor
      · rintro ⟨hm, hne⟩
        exact ⟨Or.inr hm, hne⟩
      · rintro ⟨hq | hm, hne⟩
        · exact absurd (show p.1 = k by rw [hq]; exact h) hne
        · exact ⟨hm, hne⟩
    · rw [if_neg h]
      simp only [List.mem_cons, ih]
      constructor
      · rintro (rfl | ⟨hm, hne⟩)
        · exact ⟨Or.inl rfl, h⟩
        · exact ⟨Or.inr hm, hne⟩
      · rintro ⟨rfl | hm, hne⟩
        · exact Or.inl rfl
        · exact Or.inr ⟨hm, hne⟩

theorem mem_kvPut {l : List (Key × KVVal)} {k : Key} {v : KVVal} {p : Key × KVVal} :
    p ∈ kvPut l k v ↔ p = (k, v) ∨ (p ∈ l ∧ p.1 ≠ k) := by
  simp [kvPut, mem_kvDelete]

theorem kvFind_mem {l : List (Key × KVVal)} {k : Key} {v : KVVal}
    (h : kvFind l k = some v) : (k, v) ∈ l := by
  induction l with
  | nil => simp [kvFind] at h
  | cons p rest ih =>
    by_cases h1 : p.1 = k
    · simp [kvFind, h1] at h
      rw [← h1, ← h]
      exact List.mem_cons_self p rest
    · simp [kvFind, h1] at h
      exact List.mem_cons_of_mem _ (ih h)

theorem keys_kvDelete_sublist (l : List (Key × KVVal)) (k : Key) :
    ((kvDelete l k).map Prod.fst).Sublist (l.map Prod.fst) := by
  induction l with
  | nil => simp [kvDelete]
  | cons p rest ih =>
    by_cases h : p.1 = k <;> simp [kvDelete, h]
    · exact ih.trans (List.sublist_cons_self _ _)
    · exact ih

theorem nodup_keys_kvDelete {l : List (Key × KVVal)} (k : Key)
    (h : (l.map Prod.fst).Nodup) : ((kvDelete l k).map Prod.fst).Nodup :=
  h.sublist (keys_kvDelete_sublist l k)

theorem not_mem_keys_kvDelete (l : List (Key × KVVal)) (k : Key) :
    k ∉ (kvDelete l k).map Prod.fst := by
  intro h
  obtain ⟨p, hp, hk⟩ := List.mem_map.1 h
  exact absurd hk (mem_kvDelete.1 hp).2

theorem nodup_keys_kvPut {l : List (Key × KVVal)} (k : Key) (v : KVVal)
    (h : (l.map Prod.fst).Nodup) : ((kvPut l k v).map Prod.fst).Nodup := by
  simp only [kvPut, List.map_cons, List.nodup_cons]
  exact ⟨not_mem_keys_kvDelete l k, nodup_keys_kvDelete k h⟩

theorem kvGet_ok_iff {l : List (Key × KVVal)} {fs : List Key} {k : Key} {v : KVVal} :
    kvGet l fs k = .ok v ↔ k ∉ fs ∧ kvFind l k = some v := by
  unfold kvGet
  by_cases hf : k ∈ fs <;> simp [hf]
  cases h : kvFind l k <;> simp

theorem kvGet_notFound_iff {l : List (Key × KVVal)} {fs : List Key} {k : Key} :
    kvGet l fs k = .error .notFound ↔ k ∉ fs ∧ kvFind l k = none := by
  unfold kvGet
  by_cases hf : k ∈ fs <;> simp [hf]
  cases h : kvFind l k <;> simp

/-! ### Encoding lemmas -/

theorem natToBytes_length (w n : Nat) : (natToBytes w n).length = w := by
  induction w with
  | zero => rfl
  | succ w ih => simp [natToBytes, ih]

theorem idEncode_eq_some {id : Nat} {k : Key} :
    idEncode id = some k ↔ id ≠ 0 ∧ k = natToBytes IDLength id := by
  unfold idEncode
  by_cases h : id = 0 <;> simp [h, eq_comm]

theorem idEncode_of_ne {id : Nat} (h : id ≠ 0) :
    idEncode id = some (natToBytes IDLength id) := by
  simp [idEncode, h]

theorem idEncode_eq_none {id : Nat} : idEncode id = none ↔ id = 0 := by
  unfold idEncode
  by_cases h : id = 0 <;> simp [h]

theorem bucketIndexKey_eq_ok {o : Nat} {n : String} {k : Key} :
    bucketIndexKey o n = .ok k ↔ o ≠ 0 ∧ k = ikeyB o n := by
  unfold bucketIndexKey ikeyB
  by_cases h : o = 0 <;> simp [h, idEncode_of_ne, idEncode, eq_comm]

theorem bucketIndexKey_of_ne {o : Nat} (n : String) (h : o ≠ 0) :
    bucketIndexKey o n = .ok (ikeyB o n) :=
  bucketIndexKey_eq_ok.2 ⟨h, rfl⟩

theorem ikeyB_length_ne_zero (o : Nat) (n : String) : (ikeyB o n).length ≠ 0 := by
  simp [ikeyB, natToBytes_length, IDLength]

theorem bytesToNat_natToBytes (w n : Nat) : bytesToNat (natToBytes w n) = n % 256 ^ w := by
  suffices h : ∀ w n a, List.foldl (fun a d => a * 256 + d) a (natToBytes w n)
      = a * 256 ^ w + n % 256 ^ w by
    simpa [bytesToNat] using h w n 0
  intro w
  induction w with
  | zero =>
    intro n a
    simp [natToBytes, Nat.mod_one]
  | succ w ih =>
    intro n a
    rw [natToBytes, List.foldl_cons, ih, Nat.pow_succ]
    have hmod : n % (256 ^ w * 256) = 256 ^ w * (n / 256 ^ w % 256) + n % 256 ^ w := by
      rw [Nat.mod_mul]
      ring
    rw [hmod]
    ring

theorem idDecode_natToBytes {n : Nat} (h : n < 256 ^ IDLength) :
    idDecode (natToBytes IDLength n) = some n := by
  rw [idDecode, if_pos (natToBytes_length _ _), bytesToNat_natToBytes, Nat.mod_eq_of_lt h]

/-! ### Invariant component lemmas -/

theorem primEntryOkB_doc {tx : Tx} {k : Key} {b : Bucket} :
    primEntryOkB tx (k, .doc b) = true ↔
      b.id ≠ 0 ∧ b.orgID ≠ 0 ∧ k = natToBytes IDLength b.id ∧
      kvFind tx.index (ikeyB b.orgID b.name) = some (.raw k) := by
  simp [primEntryOkB, and_assoc]

theorem primEntryOkB_raw {tx : Tx} {k : Key} {bs : List Nat} :
    primEntryOkB tx (k, .raw bs) ≠ true := by
  simp [primEntryOkB]

theorem idxEntryOkB_raw {tx : Tx} {k : Key} {ek : List Nat} :
    idxEntryOkB tx (k, .raw ek) = true ↔
      ∃ b, kvFind tx.buckets ek = some (.doc b) ∧ k = ikeyB b.orgID b.name := by
  simp only [idxEntryOkB]
  cases h : kvFind tx.buckets ek with
  | none => simp
  | some v =>
    cases v with
    | doc b => simp
    | raw bs => simp

theorem idxEntryOkB_doc {tx : Tx} {k : Key} {b : Bucket} :
    idxEntryOkB tx (k, .doc b) ≠ true := by
  simp [idxEntryOkB]

/-- Unpack the invariant's forward direction at a looked-up record. -/
theorem I1_find_doc {tx : Tx} {k : Key} {b : Bucket} (hI : I1 tx)
    (h : kvFind tx.buckets k = some (.doc b)) :
    b.id ≠ 0 ∧ b.orgID ≠ 0 ∧ k = natToBytes IDLength b.id ∧
      kvFind tx.index (ikeyB b.orgID b.name) = some (.raw k) :=
  primEntryOkB_doc.1 (hI.2.2.1 _ (kvFind_mem h))

/-! ### Operation characterization lemmas -/

theorem uniqueBucketName_ok_iff {tx : Tx} {o : Nat} {n : String} :
    uniqueBucketName tx o n = .ok () ↔
      o ≠ 0 ∧ kvGet tx.index tx.iFaults (ikeyB o n) = .error .notFound := by
  unfold uniqueBucketName
  by_cases ho : o = 0
  · subst ho
    simp [bucketIndexKey, idEncode]
  · rw [bucketIndexKey_of_ne n ho]
    simp only [if_neg (ikeyB_length_ne_zero o n)]
    cases h : kvGet tx.index tx.iFaults (ikeyB o n) with
    | ok v => simp [ho]
    | error e => cases e <;> simp [ho]

theorem kvGet_fault_iff {l : List (Key × KVVal)} {fs : List Key} {k : Key} :
    kvGet l fs k = .error .fault ↔ k ∈ fs := by
  unfold kvGet
  by_cases hf : k ∈ fs
  · simp [hf]
  · simp only [hf, if_false, iff_false]
    cases h : kvFind l k <;> simp

theorem GetBucket_ok_iff {tx : Tx} {id : Nat} {b : Bucket} :
    GetBucket tx id = .ok b ↔
      id ≠ 0 ∧ natToBytes IDLength id ∉ tx.bFaults ∧
      kvFind tx.buckets (natToBytes IDLength id) = some (.doc b) := by
  unfold GetBucket
  by_cases hid : id = 0
  · subst hid
    simp [idEncode]
  · rw [idEncode_of_ne hid]
    cases h : kvGet tx.buckets tx.bFaults (natToBytes IDLength id) with
    | ok v =>
      rcases kvGet_ok_iff.1 h with ⟨hf, hfind⟩
      cases v with
      | doc b' => simp [h, unmarshalBucket, hid, hf, hfind]
      | raw bs => simp [h, unmarshalBucket, hid, hf, hfind]
    | error e =>
      cases e with
      | notFound =>
        rcases kvGet_notFound_iff.1 h with ⟨hf, hfind⟩
        simp [h, hid, hf, hfind]
      | fault =>
        have hf := kvGet_fault_iff.1 h
        simp [h, hf]

/-- A successful `createWithID` call, fully evaluated: the timestamps
are stamped, the index entry is written, then the primary record. -/
theorem createWithID_eq_ok {now : Nat} {tx : Tx} {b : Bucket}
    (hid : b.id ≠ 0) (ho : b.orgID ≠ 0)
    (hu : kvGet tx.index tx.iFaults (ikeyB b.orgID b.name) = .error .notFound) :
    createWithID now tx b =
      (⟨kvPut tx.buckets (natToBytes IDLength b.id)
          (.doc { b with createdAt := now, updatedAt := now }),
        kvPut tx.index (ikeyB b.orgID b.name) (.raw (natToBytes IDLength b.id)),
        tx.bFaults, tx.iFaults⟩,
       .ok { b with createdAt := now, updatedAt := now }) := by
  have hU : uniqueBucketName tx b.orgID b.name = .ok () :=
    uniqueBucketName_ok_iff.2 ⟨ho, hu⟩
  unfold createWithID
  rw [idEncode_of_ne hid]
  simp [hU, bucketIndexKey_of_ne _ ho, marshalBucket]

/-- Inversion of a successful `createWithID` call. -/
theorem createWithID_ok_inv {now : Nat} {tx : Tx} {b b' : Bucket}
    (h : (createWithID now tx b).2 = .ok b') :
    b.id ≠ 0 ∧ b.orgID ≠ 0 ∧
    kvGet tx.index tx.iFaults (ikeyB b.orgID b.name) = .error .notFound ∧
    b' = { b with createdAt := now, updatedAt := now } := by
  by_cases hid : b.id = 0
  · exfalso
    simp [createWithID, idEncode, hid] at h
  · cases hU : uniqueBucketName tx b.orgID b.name with
    | error e =>
      exfalso
      simp [createWithID, idEncode_of_ne hid, hU] at h
    | ok u =>
      cases u
      obtain ⟨ho, hu⟩ := uniqueBucketName_ok_iff.1 hU
      refine ⟨hid, ho, hu, ?_⟩
      rw [createWithID_eq_ok hid ho hu] at h
      simpa using h.symm

/-- A successful create preserves the bijection, provided the effective
identifier does not already key a primary record. -/
theorem createWithID_preserves_I1 {now : Nat} {tx : Tx} {b b' : Bucket}
    (hI : I1 tx)
    (hfresh : kvFind tx.buckets (natToBytes IDLength b.id) = none)
    (h : (createWithID now tx b).2 = .ok b') :
    I1 (createWithID now tx b).1 := by
  obtain ⟨hid, ho, hu, hb'⟩ := createWithID_ok_inv h
  obtain ⟨hfI, hIfresh⟩ := kvGet_notFound_iff.1 hu
  obtain ⟨hN1, hN2, hFwd, hBwd⟩ := hI
  rw [createWithID_eq_ok hid ho hu]
  refine ⟨nodup_keys_kvPut _ _ hN1, nodup_keys_kvPut _ _ hN2, ?_, ?_⟩
  · intro p hp
    rcases mem_kvPut.1 hp with rfl | ⟨hpm, hpne⟩
    · rw [primEntryOkB_doc]
      refine ⟨hid, ho, rfl, ?_⟩
      show kvFind (kvPut tx.index (ikeyB b.orgID b.name) (.raw (natToBytes IDLength b.id)))
        (ikeyB b.orgID b.name) = _
      rw [kvFind_kvPut, if_pos rfl]
    · have hold := hFwd p hpm
      obtain ⟨k0, v0⟩ := p
      cases v0 with
      | raw _ => exact absurd hold primEntryOkB_raw
      | doc bp =>
        obtain ⟨g1, g2, g3, g4⟩ := primEntryOkB_doc.1 hold
        rw [primEntryOkB_doc]
        refine ⟨g1, g2, g3, ?_⟩
        show kvFind (kvPut tx.index (ikeyB b.orgID b.name) (.raw (natToBytes IDLength b.id)))
          (ikeyB bp.orgID bp.name) = _
        rw [kvFind_kvPut, if_neg ?_]
        · exact g4
        · intro hc
          rw [hc, hIfresh] at g4
          exact absurd g4 (by simp)
  · intro q hq
    rcases mem_kvPut.1 hq with rfl | ⟨hqm, hqne⟩
    · rw [idxEntryOkB_raw]
      refine ⟨{ b with createdAt := now, updatedAt := now }, ?_, rfl⟩
      show kvFind (kvPut tx.buckets (natToBytes IDLength b.id)
        (.doc { b with createdAt := now, updatedAt := now })) (natToBytes IDLength b.id) = _
      rw [kvFind_kvPut, if_pos rfl]
    · have hold := hBwd q hqm
      obtain ⟨k0, v0⟩ := q
      cases v0 with
      | doc _ => exact absurd hold idxEntryOkB_doc
      | raw ek0 =>
        obtain ⟨bq, hbq, hkey⟩ := idxEntryOkB_raw.1 hold
        rw [idxEntryOkB_raw]
        refine ⟨bq, ?_, hkey⟩
        show kvFind (kvPut tx.buckets (natToBytes IDLength b.id)
          (.doc { b with createdAt := now, updatedAt := now })) ek0 = _
        rw [kvFind_kvPut, if_neg ?_]
        · exact hbq
        · intro hc
          rw [hc, hfresh] at hbq
          exact absurd hbq (by simp)

/-- `CreateBucket` preserves the bijection when the caller-supplied ID
is not already a primary key (respectively, when the generated ID is
fresh, which the spec's Identifier Generator guarantees). -/
theorem CreateBucket_preserves_I1 {now gid : Nat} {tx : Tx} {b b' : Bucket}
    (hI : I1 tx)
    (hsup : idValid b.id = true → kvFind tx.buckets (natToBytes IDLength b.id) = none)
    (hgen : idValid b.id = false → kvFind tx.buckets (natToBytes IDLength gid) = none)
    (h : (CreateBucket now gid tx b).2 = .ok b') :
    I1 (CreateBucket now gid tx b).1 := by
  unfold CreateBucket at h ⊢
  by_cases hv : idValid b.id = true
  · rw [if_pos hv] at h ⊢
    exact createWithID_preserves_I1 hI (hsup hv) h
  · rw [if_neg hv] at h ⊢
    refine createWithID_preserves_I1 hI ?_ h
    simpa using hgen (by simpa using hv)

theorem patchBucket_id (b : Bucket) (upd : BucketUpdate) : (patchBucket b upd).id = b.id := by
  unfold patchBucket
  cases upd.description <;> cases upd.retentionPeriod <;> simp

theorem patchBucket_orgID (b : Bucket) (upd : BucketUpdate) :
    (patchBucket b upd).orgID = b.orgID := by
  unfold patchBucket
  cases upd.description <;> cases upd.retentionPeriod <;> simp

theorem patchBucket_name (b : Bucket) (upd : BucketUpdate) :
    (patchBucket b upd).name = b.name := by
  unfold patchBucket
  cases upd.description <;> cases upd.retentionPeriod <;> simp

/-- Overwriting a stored record in place with a record that keeps the
same ID, organization and name preserves the bijection (the no-rename
half of `UpdateBucket`). -/
theorem put_same_key_preserves_I1 {tx : Tx} {ek : Key} {b0 bNew : Bucket}
    (hI : I1 tx)
    (hOld : kvFind tx.buckets ek = some (.doc b0))
    (hid : bNew.id = b0.id) (horg : bNew.orgID = b0.orgID) (hname : bNew.name = b0.name) :
    I1 ⟨kvPut tx.buckets ek (.doc bNew), tx.index, tx.bFaults, tx.iFaults⟩ := by
  obtain ⟨hN1, hN2, hFwd, hBwd⟩ := hI
  obtain ⟨h1, h2, h3, h4⟩ := primEntryOkB_doc.1 (hFwd _ (kvFind_mem hOld))
  refine ⟨nodup_keys_kvPut _ _ hN1, hN2, ?_, ?_⟩
  · intro p hp
    rcases mem_kvPut.1 hp with rfl | ⟨hpm, hpne⟩
    · rw [primEntryOkB_doc]
      refine ⟨by rw [hid]; exact h1, by rw [horg]; exact h2, by rw [hid]; exact h3, ?_⟩
      show kvFind tx.index (ikeyB bNew.orgID bNew.name) = _
      rw [horg, hname]
      exact h4
    · have hold := hFwd p hpm
      obtain ⟨k0, v0⟩ := p
      cases v0 with
      | raw _ => exact absurd hold primEntryOkB_raw
      | doc bp =>
        obtain ⟨g1, g2, g3, g4⟩ := primEntryOkB_doc.1 hold
        rw [primEntryOkB_doc]
        exact ⟨g1, g2, g3, g4⟩
  · intro q hq
    have hold := hBwd q hq
    obtain ⟨k0, v0⟩ := q
    cases v0 with
    | doc _ => exact absurd hold idxEntryOkB_doc
    | raw ek0 =>
      obtain ⟨bq, hbq, hkey⟩ := idxEntryOkB_raw.1 hold
      rw [idxEntryOkB_raw]
      by_cases he : ek0 = ek
      · have hbq0 : bq = b0 := by
          rw [he, hOld] at hbq
          exact (KVVal.doc.inj (Option.some.inj hbq)).symm
        refine ⟨bNew, ?_, ?_⟩
        · show kvFind (kvPut tx.buckets ek (.doc bNew)) ek0 = _
          rw [he, kvFind_kvPut, if_pos rfl]
        · rw [horg, hname, ← hbq0]
          exact hkey
      · -- entry pointing elsewhere: untouched record
        refine ⟨bq, ?_, hkey⟩
        show kvFind (kvPut tx.buckets ek (.doc bNew)) ek0 = _
        rw [kvFind_kvPut, if_neg he]
        exact hbq

/-- The rename half of `UpdateBucket`: delete the old index entry,
insert the new one and rewrite the record under the same primary key;
the new composite key must be free. This preserves the bijection. -/
theorem rename_preserves_I1 {tx : Tx} {ek : Key} {b0 bNew : Bucket} {nNew : String}
    {o : Nat} {nOld : String}
    (hI : I1 tx)
    (hOld : kvFind tx.buckets ek = some (.doc b0))
    (hid : bNew.id = b0.id) (horg : bNew.orgID = b0.orgID) (hname : bNew.name = nNew)
    (ho2 : o = b0.orgID) (hn2 : nOld = b0.name)
    (hIfresh : kvFind tx.index (ikeyB o nNew) = none) :
    I1 ⟨kvPut tx.buckets ek (.doc bNew),
        kvPut (kvDelete tx.index (ikeyB o nOld)) (ikeyB o nNew)
          (.raw ek),
        tx.bFaults, tx.iFaults⟩ := by
  subst ho2
  subst hn2
  obtain ⟨hN1, hN2, hFwd, hBwd⟩ := hI
  obtain ⟨h1, h2, h3, h4⟩ := primEntryOkB_doc.1 (hFwd _ (kvFind_mem hOld))
  refine ⟨nodup_keys_kvPut _ _ hN1,
    nodup_keys_kvPut _ _ (nodup_keys_kvDelete _ hN2), ?_, ?_⟩
  · intro p hp
    rcases mem_kvPut.1 hp with rfl | ⟨hpm, hpne⟩
    · rw [primEntryOkB_doc]
      refine ⟨by rw [hid]; exact h1, by rw [horg]; exact h2, by rw [hid]; exact h3, ?_⟩
      show kvFind (kvPut (kvDelete tx.index (ikeyB b0.orgID b0.name))
        (ikeyB b0.orgID nNew) (.raw ek)) (ikeyB bNew.orgID bNew.name) = _
      rw [horg, hname, kvFind_kvPut, if_pos rfl]
    · have hold := hFwd p hpm
      obtain ⟨k0, v0⟩ := p
      cases v0 with
      | raw _ => exact absurd hold primEntryOkB_raw
      | doc bp =>
        obtain ⟨g1, g2, g3, g4⟩ := primEntryOkB_doc.1 hold
        have hnew : ikeyB bp.orgID bp.name ≠ ikeyB b0.orgID nNew := by
          intro hc
          rw [hc, hIfresh] at g4
          exact absurd g4 (by simp)
        have hold2 : ikeyB bp.orgID bp.name ≠ ikeyB b0.orgID b0.name := by
          intro hc
          rw [hc, h4] at g4
          have hek : ek = k0 := by simpa using g4
          exact hpne hek.symm
        rw [primEntryOkB_doc]
        refine ⟨g1, g2, g3, ?_⟩
        show kvFind (kvPut (kvDelete tx.index (ikeyB b0.orgID b0.name))
          (ikeyB b0.orgID nNew) (.raw ek)) (ikeyB bp.orgID bp.name) = _
        rw [kvFind_kvPut, if_neg hnew, kvFind_kvDelete, if_neg hold2]
        exact g4
  · intro q hq
    rcases mem_kvPut.1 hq with rfl | ⟨hqm, hqne⟩
    · rw [idxEntryOkB_raw]
      refine ⟨bNew, ?_, by rw [horg, hname]⟩
      show kvFind (kvPut tx.buckets ek (.doc bNew)) ek = _
      rw [kvFind_kvPut, if_pos rfl]
    · obtain ⟨hqm2, hqne2⟩ := mem_kvDelete.1 hqm
      have hold := hBwd q hqm2
      obtain ⟨k0, v0⟩ := q
      cases v0 with
      | doc _ => exact absurd hold idxEntryOkB_doc
      | raw ek0 =>
        obtain ⟨bq, hbq, hkey⟩ := idxEntryOkB_raw.1 hold
        rw [idxEntryOkB_raw]
        by_cases he : ek0 = ek
        · exfalso
          have hbq0 : bq = b0 := by
            rw [he, hOld] at hbq
            exact (KVVal.doc.inj (Option.some.inj hbq)).symm
          apply hqne2
          rw [hkey, hbq0]
        · refine ⟨bq, ?_, hkey⟩
          show kvFind (kvPut tx.buckets ek (.doc bNew)) ek0 = _
          rw [kvFind_kvPut, if_neg he]
          exact hbq

/-- A successful rename branch preserves the bijection; `bu` is the
loaded record with refreshed timestamp, still carrying the stored
identity. -/
theorem updateRename_preserves_I1 {tx : Tx} {ek : Key} {b0 bu : Bucket} {n' : String}
    {upd : BucketUpdate} {b' : Bucket}
    (hI : I1 tx) (hOld : kvFind tx.buckets ek = some (.doc b0))
    (hbid : bu.id = b0.id) (hborg : bu.orgID = b0.orgID) (hbname : bu.name = b0.name)
    (h : (updateRename tx ek bu n' upd).2 = .ok b') :
    I1 (updateRename tx ek bu n' upd).1 := by
  unfold updateRename at h ⊢
  by_cases hsys : bu.btype = BucketType.system
  · rw [if_pos hsys] at h
    simp at h
  · rw [if_neg hsys] at h ⊢
    cases hU : uniqueBucketName tx bu.orgID n' with
    | error e =>
      rw [hU] at h
      simp at h
    | ok u =>
      cases u
      obtain ⟨ho, hu⟩ := uniqueBucketName_ok_iff.1 hU
      obtain ⟨-, hIfresh⟩ := kvGet_notFound_iff.1 hu
      rw [bucketIndexKey_of_ne bu.name ho, bucketIndexKey_of_ne n' ho] at h ⊢
      exact rename_preserves_I1 hI hOld ((patchBucket_id _ _).trans hbid)
        ((patchBucket_orgID _ _).trans hborg) (patchBucket_name _ _) hborg hbname hIfresh

/-- A successful `UpdateBucket` preserves the bijection. -/
theorem UpdateBucket_preserves_I1 {now : Nat} {tx : Tx} {id : Nat} {upd : BucketUpdate}
    {b' : Bucket} (hI : I1 tx) (h : (UpdateBucket now tx id upd).2 = .ok b') :
    I1 (UpdateBucket now tx id upd).1 := by
  unfold UpdateBucket at h ⊢
  by_cases hid : id = 0
  · rw [idEncode_eq_none.2 hid] at h
    simp at h
  · rw [idEncode_of_ne hid] at h ⊢
    cases hG : GetBucket tx id with
    | error e =>
      rw [hG] at h
      simp at h
    | ok b0 =>
      rw [hG] at h
      obtain ⟨-, -, hOld⟩ := GetBucket_ok_iff.1 hG
      replace h : ((match upd.name with
        | some newName =>
          if b0.name ≠ newName then
            updateRename tx (natToBytes IDLength id) { b0 with updatedAt := now } newName upd
          else updateFinish tx (natToBytes IDLength id) { b0 with updatedAt := now } upd
        | none =>
          updateFinish tx (natToBytes IDLength id)
            { b0 with updatedAt := now } upd).2) = .ok b' := h
      show I1 ((match upd.name with
        | some newName =>
          if b0.name ≠ newName then
            updateRename tx (natToBytes IDLength id) { b0 with updatedAt := now } newName upd
          else updateFinish tx (natToBytes IDLength id) { b0 with updatedAt := now } upd
        | none =>
          updateFinish tx (natToBytes IDLength id) { b0 with updatedAt := now } upd).1)
      cases hn : upd.name with
      | none =>
        exact put_same_key_preserves_I1 hI hOld (patchBucket_id _ _) (patchBucket_orgID _ _)
          (patchBucket_name _ _)
      | some n' =>
        rw [hn] at h
        replace h : ((if b0.name ≠ n' then
            updateRename tx (natToBytes IDLength id) { b0 with updatedAt := now } n' upd
          else
            updateFinish tx (natToBytes IDLength id)
              { b0 with updatedAt := now } upd).2) = .ok b' := h
        show I1 ((if b0.name ≠ n' then
            updateRename tx (natToBytes IDLength id) { b0 with updatedAt := now } n' upd
          else
            updateFinish tx (natToBytes IDLength id) { b0 with updatedAt := now } upd).1)
        by_cases hdiff : b0.name = n'
        · rw [if_neg (not_not_intro hdiff)] at h ⊢
          exact put_same_key_preserves_I1 hI hOld (patchBucket_id _ _) (patchBucket_orgID _ _)
            (patchBucket_name _ _)
        · rw [if_pos hdiff] at h ⊢
          exact updateRename_preserves_I1 hI hOld rfl rfl rfl h

/-- A successful `DeleteBucket` call, fully evaluated. -/
theorem DeleteBucket_eq {tx : Tx} {id : Nat} {b0 : Bucket}
    (hG : GetBucket tx id = .ok b0) (ho : b0.orgID ≠ 0) :
    DeleteBucket tx id =
      (⟨kvDelete tx.buckets (natToBytes IDLength id),
        kvDelete tx.index (ikeyB b0.orgID b0.name), tx.bFaults, tx.iFaults⟩, .ok ()) := by
  have hid : id ≠ 0 := (GetBucket_ok_iff.1 hG).1
  unfold DeleteBucket
  rw [hG, idEncode_of_ne hid]
  show ((match bucketIndexKey b0.orgID b0.name with
      | Except.error e => (tx, Except.error e)
      | Except.ok ikey =>
        (⟨kvDelete tx.buckets (natToBytes IDLength id), kvDelete tx.index ikey,
          tx.bFaults, tx.iFaults⟩, Except.ok ())) : Tx × Except Err Unit) =
    (⟨kvDelete tx.buckets (natToBytes IDLength id),
      kvDelete tx.index (ikeyB b0.orgID b0.name), tx.bFaults, tx.iFaults⟩, Except.ok ())
  rw [bucketIndexKey_of_ne _ ho]

/-- A successful `DeleteBucket` preserves the bijection. -/
theorem DeleteBucket_preserves_I1 {tx : Tx} {id : Nat} (hI : I1 tx)
    (h : (DeleteBucket tx id).2 = .ok ()) : I1 (DeleteBucket tx id).1 := by
  cases hG : GetBucket tx id with
  | error e =>
    exfalso
    unfold DeleteBucket at h
    rw [hG] at h
    simp at h
  | ok b0 =>
    have hOld := (GetBucket_ok_iff.1 hG).2.2
    obtain ⟨h1, h2, h3, h4⟩ := I1_find_doc hI hOld
    rw [DeleteBucket_eq hG h2]
    obtain ⟨hN1, hN2, hFwd, hBwd⟩ := hI
    refine ⟨nodup_keys_kvDelete _ hN1, nodup_keys_kvDelete _ hN2, ?_, ?_⟩
    · intro p hp
      obtain ⟨hpm, hpne⟩ := mem_kvDelete.1 hp
      have hold := hFwd p hpm
      obtain ⟨k0, v0⟩ := p
      cases v0 with
      | raw _ => exact absurd hold primEntryOkB_raw
      | doc bp =>
        obtain ⟨g1, g2, g3, g4⟩ := primEntryOkB_doc.1 hold
        have hne : ikeyB bp.orgID bp.name ≠ ikeyB b0.orgID b0.name := by
          intro hc
          rw [hc, h4] at g4
          have hek : natToBytes IDLength id = k0 := by simpa using g4
          exact hpne hek.symm
        rw [primEntryOkB_doc]
        refine ⟨g1, g2, g3, ?_⟩
        show kvFind (kvDelete tx.index (ikeyB b0.orgID b0.name)) (ikeyB bp.orgID bp.name) = _
        rw [kvFind_kvDelete, if_neg hne]
        exact g4
    · intro q hq
      obtain ⟨hqm, hqne⟩ := mem_kvDelete.1 hq
      have hold := hBwd q hqm
      obtain ⟨k0, v0⟩ := q
      cases v0 with
      | doc _ => exact absurd hold idxEntryOkB_doc
      | raw ek0 =>
        obtain ⟨bq, hbq, hkey⟩ := idxEntryOkB_raw.1 hold
        rw [idxEntryOkB_raw]
        by_cases he : ek0 = natToBytes IDLength id
        · exfalso
          have hbq0 : bq = b0 := by
            rw [he, hOld] at hbq
            exact (KVVal.doc.inj (Option.some.inj hbq)).symm
          exact hqne (by rw [hkey, hbq0])
        · refine ⟨bq, ?_, hkey⟩
          show kvFind (kvDelete tx.buckets (natToBytes IDLength id)) ek0 = _
          rw [kvFind_kvDelete, if_neg he]
          exact hbq

/-! ### Read-path helper lemmas -/

theorem uniqueBucketName_unfold (tx : Tx) {o : Nat} (n : String) (ho : o ≠ 0) :
    uniqueBucketName tx o n =
      if (ikeyB o n).length = 0 then .error .nameEmpty
      else
        match kvGet tx.index tx.iFaults (ikeyB o n) with
        | .error .notFound => .ok ()
        | .ok _ => .error (.alreadyExists n)
        | .error .fault => .error .internalErr := by
  unfold uniqueBucketName
  rw [bucketIndexKey_of_ne n ho]

theorem uniqueBucketName_hit {tx : Tx} {o : Nat} {n : String} {v : KVVal}
    (ho : o ≠ 0) (hf : kvGet tx.index tx.iFaults (ikeyB o n) = .ok v) :
    uniqueBucketName tx o n = .error (.alreadyExists n) := by
  rw [uniqueBucketName_unfold tx n ho, if_neg (ikeyB_length_ne_zero o n), hf]

theorem GetBucket_unfold (tx : Tx) {id : Nat} (hid : id ≠ 0) :
    GetBucket tx id =
      match kvGet tx.buckets tx.bFaults (natToBytes IDLength id) with
      | .error .notFound => .error .notFound
      | .error .fault => .error .internalErr
      | .ok v => unmarshalBucket v := by
  unfold GetBucket
  rw [idEncode_of_ne hid]

theorem GetBucket_eq_notFound {tx : Tx} {id : Nat} (hid : id ≠ 0)
    (hf : natToBytes IDLength id ∉ tx.bFaults)
    (hfind : kvFind tx.buckets (natToBytes IDLength id) = none) :
    GetBucket tx id = .error .notFound := by
  rw [GetBucket_unfold tx hid, kvGet_notFound_iff.2 ⟨hf, hfind⟩]

theorem GetBucketByName_unfold (tx : Tx) {o : Nat} (n : String) (ho : o ≠ 0) :
    GetBucketByName tx o n =
      match kvGet tx.index tx.iFaults (ikeyB o n) with
      | .error .notFound =>
        if n = TasksSystemBucketName then .ok (tasksSystemBucket o)
        else if n = MonitoringSystemBucketName then .ok (monitoringSystemBucket o)
        else .error (.notFoundByName n)
      | .error .fault => .error .storageErr
      | .ok buf =>
        match buf with
        | .doc _ => .error .idDecodeErr
        | .raw bs =>
          match idDecode bs with
          | none => .error .idDecodeErr
          | some id => GetBucket tx id := by
  unfold GetBucketByName
  rw [bucketIndexKey_of_ne n ho]

theorem GetBucketByName_tasks {tx : Tx} {o : Nat} (ho : o ≠ 0)
    (hmiss : kvGet tx.index tx.iFaults (ikeyB o TasksSystemBucketName) = .error .notFound) :
    GetBucketByName tx o TasksSystemBucketName = .ok (tasksSystemBucket o) := by
  rw [GetBucketByName_unfold tx _ ho, hmiss, if_pos rfl]

theorem GetBucketByName_monitoring {tx : Tx} {o : Nat} (ho : o ≠ 0)
    (hmiss : kvGet tx.index tx.iFaults (ikeyB o MonitoringSystemBucketName)
      = .error .notFound) :
    GetBucketByName tx o MonitoringSystemBucketName = .ok (monitoringSystemBucket o) := by
  rw [GetBucketByName_unfold tx _ ho, hmiss, if_neg (by decide), if_pos rfl]

theorem GetBucketByName_miss {tx : Tx} {o : Nat} {n : String} (ho : o ≠ 0)
    (hmiss : kvGet tx.index tx.iFaults (ikeyB o n) = .error .notFound)
    (h1 : n ≠ TasksSystemBucketName) (h2 : n ≠ MonitoringSystemBucketName) :
    GetBucketByName tx o n = .error (.notFoundByName n) := by
  rw [GetBucketByName_unfold tx n ho, hmiss, if_neg h1, if_neg h2]

theorem listBucketsByOrg_invalid (tx : Tx) (o : FindOptions) :
    listBucketsByOrg tx 0 o = .error .invalid := rfl

/-! ### Claim C1 -/

/-- A one-bucket store reached by running `CreateBucket` itself on the
empty transaction: organization 1 owns bucket 5 named `n1`. -/
def c1Base : Tx :=
  (CreateBucket 0 5 (⟨[], [], [], []⟩ : Tx)
    ⟨0, 1, .user, "n1", "", 0, 0, 0⟩).1

/-- A second bucket reusing the already-stored ID 5 under a new name. -/
def c1Reuse : Bucket := ⟨5, 1, .user, "n2", "", 0, 0, 0⟩

/-- **C1 counterexample**: from a state satisfying I1, `CreateBucket`
with a caller-supplied valid ID that already exists in the primary
table returns success, yet the resulting state violates I1: the primary
record 5 is overwritten with name `n2` while the index entry
`(1, "n1") → 5` survives alongside the new `(1, "n2") → 5` entry. -/
theorem c1_counterexample :
    I1 c1Base ∧
    (CreateBucket 7 9 c1Base c1Reuse).2 = .ok ⟨5, 1, .user, "n2", "", 0, 7, 7⟩ ∧
    ¬ I1 (CreateBucket 7 9 c1Base c1Reuse).1 :=
  ⟨by decide, rfl, by decide⟩

/-- **C1** (amended): invariant I1 is preserved by every single
successful store operation — `CreateBucket` provided its effective
identifier (caller-supplied, or the generated one, which the spec's
Identifier Generator guarantees unique within the primary namespace)
does not already key a primary record, and `UpdateBucket` and
`DeleteBucket` unconditionally. -/
theorem c1_bijection_preserved (s : Tx) (now gid : Nat) (b : Bucket) (id : Nat)
    (upd : BucketUpdate) (hI : I1 s) :
    (∀ b', (idValid b.id = true → kvFind s.buckets (natToBytes IDLength b.id) = none) →
      (idValid b.id = false → kvFind s.buckets (natToBytes IDLength gid) = none) →
      (CreateBucket now gid s b).2 = .ok b' → I1 (CreateBucket now gid s b).1) ∧
    (∀ b', (UpdateBucket now s id upd).2 = .ok b' → I1 (UpdateBucket now s id upd).1) ∧
    ((DeleteBucket s id).2 = .ok () → I1 (DeleteBucket s id).1) :=
  ⟨fun _ h1 h2 h3 => CreateBucket_preserves_I1 hI h1 h2 h3,
   fun _ h => UpdateBucket_preserves_I1 hI h,
   fun h => DeleteBucket_preserves_I1 hI h⟩

/-- A concrete store for the C1 witness. -/
def c1wTx : Tx :=
  ⟨[(natToBytes IDLength 5, .doc ⟨5, 1, .user, "n1", "", 0, 0, 0⟩)],
   [(ikeyB 1 "n1", .raw (natToBytes IDLength 5))], [], []⟩

/-- Witness for the amended C1 at a concrete store: the store satisfies
I1, the create/delete both succeed, and I1 holds afterwards. -/
theorem c1_bijection_preserved_witness :
    I1 c1wTx ∧
    (CreateBucket 2 7 c1wTx ⟨0, 1, .user, "x", "", 0, 0, 0⟩).2 =
      .ok ⟨7, 1, .user, "x", "", 0, 2, 2⟩ ∧
    I1 (CreateBucket 2 7 c1wTx ⟨0, 1, .user, "x", "", 0, 0, 0⟩).1 ∧
    (DeleteBucket c1wTx 5).2 = .ok () ∧
    I1 (DeleteBucket c1wTx 5).1 :=
  ⟨by decide, rfl,
   (c1_bijection_preserved c1wTx 2 7 ⟨0, 1, .user, "x", "", 0, 0, 0⟩ 5
      ⟨none, none, none⟩ (by decide)).1
     ⟨7, 1, .user, "x", "", 0, 2, 2⟩ (by intro h; exact absurd h (by decide))
     (by intro h; decide) rfl,
   rfl,
   (c1_bijection_preserved c1wTx 2 7 ⟨0, 1, .user, "x", "", 0, 0, 0⟩ 5
      ⟨none, none, none⟩ (by decide)).2.2 rfl⟩

/-! ### Claim C2 -/

/-- Three buckets `a`, `b`, `c` created in organization 1 by the store
itself. -/
def c2Tx : Tx :=
  (CreateBucket 0 3
    ((CreateBucket 0 2
      ((CreateBucket 0 1 (⟨[], [], [], []⟩ : Tx) ⟨0, 1, .user, "a", "", 0, 0, 0⟩).1)
      ⟨0, 1, .user, "b", "", 0, 0, 0⟩).1)
    ⟨0, 1, .user, "c", "", 0, 0, 0⟩).1

/-- **C2**: with `OrganizationID` set, the ascending scan with limit 2
returns the buckets named `a` and `b`; but with `Descending: true` the
scan is NOT reversed — `listBucketsByOrg` opens the index cursor
without a direction option, so the same `a`, `b` come back instead of
the `c`, `b` the claim requires. -/
theorem c2_descending_ignored :
    ListBuckets c2Tx ⟨none, some 1⟩ [⟨2, 0, false⟩] =
      .ok [⟨1, 1, .user, "a", "", 0, 0, 0⟩, ⟨2, 1, .user, "b", "", 0, 0, 0⟩] ∧
    ListBuckets c2Tx ⟨none, some 1⟩ [⟨2, 0, true⟩] =
      .ok [⟨1, 1, .user, "a", "", 0, 0, 0⟩, ⟨2, 1, .user, "b", "", 0, 0, 0⟩] ∧
    ListBuckets c2Tx ⟨none, some 1⟩ [⟨2, 0, true⟩] ≠
      .ok [⟨3, 1, .user, "c", "", 0, 0, 0⟩, ⟨2, 1, .user, "b", "", 0, 0, 0⟩] := by
  refine ⟨rfl, rfl, ?_⟩
  intro hc
  have h0 : ListBuckets c2Tx ⟨none, some 1⟩ [⟨2, 0, true⟩] =
      .ok [⟨1, 1, .user, "a", "", 0, 0, 0⟩, ⟨2, 1, .user, "b", "", 0, 0, 0⟩] := rfl
  have h12 : ([⟨1, 1, .user, "a", "", 0, 0, 0⟩, ⟨2, 1, .user, "b", "", 0, 0, 0⟩] : List Bucket)
      = [⟨3, 1, .user, "c", "", 0, 0, 0⟩, ⟨2, 1, .user, "b", "", 0, 0, 0⟩] :=
    Except.ok.inj (h0.symm.trans hc)
  exact absurd h12 (by decide)

/-! ### Claim C9 -/

/-- **C9**: `CreateBucket` with an empty `Name` does NOT fail — the
composite key always has at least `IDLength` bytes, so the
`len(key) == 0` guard in `uniqueBucketName` is unreachable and the
empty-named bucket is created and indexed under the bare organization
prefix. -/
theorem c9_empty_name_accepted :
    (CreateBucket 0 9 (⟨[], [], [], []⟩ : Tx) ⟨1, 1, .user, "", "", 0, 0, 0⟩).2 =
      .ok ⟨1, 1, .user, "", "", 0, 0, 0⟩ ∧
    (CreateBucket 0 9 (⟨[], [], [], []⟩ : Tx) ⟨1, 1, .user, "", "", 0, 0, 0⟩).1.index =
      [(ikeyB 1 "", .raw (natToBytes IDLength 1))] ∧
    (CreateBucket 0 9 (⟨[], [], [], []⟩ : Tx) ⟨1, 1, .user, "", "", 0, 0, 0⟩).1.buckets =
      [(natToBytes IDLength 1, .doc ⟨1, 1, .user, "", "", 0, 0, 0⟩)] :=
  ⟨rfl, rfl, rfl⟩

/-! ### Claim C10 -/

/-- **C10**: on the rename path of `UpdateBucket`, any failure of the
uniqueness probe — already-indexed name or internal index-read failure
alike — is reported to the caller as the name-not-unique error; the
probe's own error value is discarded. -/
theorem c10_rename_probe_error_collapsed (s : Tx) (now id : Nat) (upd : BucketUpdate)
    (b0 : Bucket) (n' : String) (e : Err)
    (hget : GetBucket s id = .ok b0)
    (hn : upd.name = some n') (hdiff : b0.name ≠ n')
    (hsys : b0.btype ≠ .system)
    (hprobe : uniqueBucketName s b0.orgID n' = .error e) :
    UpdateBucket now s id upd = (s, .error .nameNotUnique) := by
  have hid : id ≠ 0 := (GetBucket_ok_iff.1 hget).1
  unfold UpdateBucket
  rw [idEncode_of_ne hid, hget, hn]
  show (if b0.name ≠ n' then
      updateRename s (natToBytes IDLength id) { b0 with updatedAt := now } n' upd
    else updateFinish s (natToBytes IDLength id) { b0 with updatedAt := now } upd) = _
  rw [if_pos hdiff]
  unfold updateRename
  have hprobe' : uniqueBucketName s ({ b0 with updatedAt := now } : Bucket).orgID n'
      = .error e := hprobe
  rw [if_neg hsys, hprobe']

/-- An index-read fault on the probed key `(1, "n2")`: the uniqueness
probe fails internally, yet `UpdateBucket` reports name-not-unique. -/
def c10Tx : Tx :=
  ⟨[(natToBytes IDLength 5, .doc ⟨5, 1, .user, "n1", "", 0, 0, 0⟩)],
   [(ikeyB 1 "n1", .raw (natToBytes IDLength 5))], [], [ikeyB 1 "n2"]⟩

/-- Witness for C10: the probe's failure really is the internal error,
and the rename still surfaces as name-not-unique. -/
theorem c10_rename_probe_error_collapsed_witness :
    uniqueBucketName c10Tx 1 "n2" = .error .internalErr ∧
    UpdateBucket 3 c10Tx 5 ⟨some "n2", none, none⟩ = (c10Tx, .error .nameNotUnique) :=
  ⟨rfl,
   c10_rename_probe_error_collapsed c10Tx 3 5 ⟨some "n2", none, none⟩
     ⟨5, 1, .user, "n1", "", 0, 0, 0⟩ "n2" .internalErr rfl rfl (by decide) (by decide) rfl⟩

/-! ### Claim C3 -/

/-- After a successful `createWithID`, both lookups read the created
record back, provided the transaction has no primary-read faults and
the effective ID fits in the identifier width. -/
theorem createWithID_then_get {now : Nat} {s : Tx} {bb b' : Bucket}
    (hbf : s.bFaults = []) (hbB : bb.id < 256 ^ IDLength)
    (hres : (createWithID now s bb).2 = .ok b') :
    GetBucketByName (createWithID now s bb).1 b'.orgID b'.name = .ok b' ∧
    GetBucket (createWithID now s bb).1 b'.id = .ok b' := by
  obtain ⟨hid, ho, hu, hb'⟩ := createWithID_ok_inv hres
  subst hb'
  obtain ⟨hfI, hIfresh⟩ := kvGet_notFound_iff.1 hu
  have hGet : GetBucket (createWithID now s bb).1
      ({ bb with createdAt := now, updatedAt := now } : Bucket).id =
      .ok { bb with createdAt := now, updatedAt := now } := by
    rw [GetBucket_ok_iff]
    refine ⟨hid, ?_, ?_⟩
    · rw [createWithID_eq_ok hid ho hu]
      show natToBytes IDLength bb.id ∉ s.bFaults
      rw [hbf]
      simp
    · rw [createWithID_eq_ok hid ho hu]
      show kvFind (kvPut s.buckets (natToBytes IDLength bb.id)
        (.doc { bb with createdAt := now, updatedAt := now }))
        (natToBytes IDLength bb.id) = _
      rw [kvFind_kvPut, if_pos rfl]
  refine ⟨?_, hGet⟩
  rw [GetBucketByName_unfold _ _ ho]
  have hfind : kvGet (createWithID now s bb).1.index (createWithID now s bb).1.iFaults
      (ikeyB ({ bb with createdAt := now, updatedAt := now } : Bucket).orgID
        ({ bb with createdAt := now, updatedAt := now } : Bucket).name) =
      .ok (.raw (natToBytes IDLength bb.id)) := by
    rw [createWithID_eq_ok hid ho hu]
    rw [kvGet_ok_iff]
    refine ⟨hfI, ?_⟩
    show kvFind (kvPut s.index (ikeyB bb.orgID bb.name)
      (.raw (natToBytes IDLength bb.id))) (ikeyB bb.orgID bb.name) = _
    rw [kvFind_kvPut, if_pos rfl]
  rw [hfind]
  show (match idDecode (natToBytes IDLength bb.id) with
    | none => Except.error Err.idDecodeErr
    | some id => GetBucket (createWithID now s bb).1 id) =
    Except.ok ({ bb with createdAt := now, updatedAt := now } : Bucket)
  rw [idDecode_natToBytes hbB]
  exact hGet

/-- **C3**: every bucket successfully created by `CreateBucket` is read
back identically by `GetBucketByName` on its organization and name and
by `GetBucket` on its ID, in the same transaction state. -/
theorem c3_create_then_get (s : Tx) (now gid : Nat) (b b' : Bucket)
    (hbf : s.bFaults = [])
    (hgid : gid < 256 ^ IDLength) (hbid : b.id < 256 ^ IDLength)
    (hres : (CreateBucket now gid s b).2 = .ok b')
    (hnres : b'.name ≠ TasksSystemBucketName ∧ b'.name ≠ MonitoringSystemBucketName) :
    GetBucketByName (CreateBucket now gid s b).1 b'.orgID b'.name = .ok b' ∧
    GetBucket (CreateBucket now gid s b).1 b'.id = .ok b' := by
  unfold CreateBucket at hres ⊢
  by_cases hv : idValid b.id = true
  · rw [if_pos hv] at hres ⊢
    exact createWithID_then_get hbf hbid hres
  · rw [if_neg hv] at hres ⊢
    refine createWithID_then_get hbf ?_ hres
    show gid < 256 ^ IDLength
    exact hgid

/-- Witness for C3 on a concrete creation in the empty store. -/
theorem c3_create_then_get_witness :
    (CreateBucket 4 3 (⟨[], [], [], []⟩ : Tx) ⟨0, 1, .user, "metrics", "", 0, 0, 0⟩).2 =
      .ok ⟨3, 1, .user, "metrics", "", 0, 4, 4⟩ ∧
    GetBucketByName
      (CreateBucket 4 3 (⟨[], [], [], []⟩ : Tx) ⟨0, 1, .user, "metrics", "", 0, 0, 0⟩).1
      1 "metrics" = .ok ⟨3, 1, .user, "metrics", "", 0, 4, 4⟩ ∧
    GetBucket
      (CreateBucket 4 3 (⟨[], [], [], []⟩ : Tx) ⟨0, 1, .user, "metrics", "", 0, 0, 0⟩).1
      3 = .ok ⟨3, 1, .user, "metrics", "", 0, 4, 4⟩ :=
  ⟨rfl,
   (c3_create_then_get (⟨[], [], [], []⟩ : Tx) 4 3 ⟨0, 1, .user, "metrics", "", 0, 0, 0⟩
      ⟨3, 1, .user, "metrics", "", 0, 4, 4⟩ rfl (by decide) (by decide) rfl
      ⟨by decide, by decide⟩).1,
   (c3_create_then_get (⟨[], [], [], []⟩ : Tx) 4 3 ⟨0, 1, .user, "metrics", "", 0, 0, 0⟩
      ⟨3, 1, .user, "metrics", "", 0, 4, 4⟩ rfl (by decide) (by decide) rfl
      ⟨by decide, by decide⟩).2⟩

/-! ### Claim C4 -/

/-- **C4**: when the store already holds a User bucket with `(o, n)`,
creating a second bucket with the same pair fails with the
already-exists error and returns the transaction completely unchanged:
the uniqueness check runs strictly before either write. -/
theorem c4_duplicate_create_rejected (s : Tx) (now gid : Nat) (bx b2 : Bucket) (X : Nat)
    (hI : I1 s) (hif : s.iFaults = [])
    (hstored : GetBucket s X = .ok bx) (huser : bx.btype = .user)
    (horg : b2.orgID = bx.orgID) (hname : b2.name = bx.name)
    (hgid : gid ≠ 0) :
    CreateBucket now gid s b2 = (s, .error (.alreadyExists b2.name)) := by
  obtain ⟨-, -, hOld⟩ := GetBucket_ok_iff.1 hstored
  obtain ⟨h1, h2, h3, h4⟩ := I1_find_doc hI hOld
  have ho2 : b2.orgID ≠ 0 := by
    rw [horg]
    exact h2
  have hhit : kvGet s.index s.iFaults (ikeyB b2.orgID b2.name) =
      .ok (.raw (natToBytes IDLength X)) := by
    rw [horg, hname]
    exact kvGet_ok_iff.2 ⟨by rw [hif]; simp, h4⟩
  have hU : uniqueBucketName s b2.orgID b2.name = .error (.alreadyExists b2.name) :=
    uniqueBucketName_hit ho2 hhit
  unfold CreateBucket createWithID
  by_cases hv : idValid b2.id = true
  · rw [if_pos hv]
    have hEnc : idEncode b2.id = some (natToBytes IDLength b2.id) :=
      idEncode_of_ne (by simpa [idValid] using hv)
    rw [hEnc, hU]
  · rw [if_neg hv]
    have hEnc : idEncode ({ b2 with id := gid } : Bucket).id =
        some (natToBytes IDLength gid) := idEncode_of_ne hgid
    have hU' : uniqueBucketName s ({ b2 with id := gid } : Bucket).orgID
        ({ b2 with id := gid } : Bucket).name = .error (.alreadyExists b2.name) := hU
    rw [hEnc, hU']

/-- The concrete store of the C4 witness: organization 1 already owns a
User bucket 5 named `m`. -/
def c4Tx : Tx :=
  ⟨[(natToBytes IDLength 5, .doc ⟨5, 1, .user, "m", "", 0, 0, 0⟩)],
   [(ikeyB 1 "m", .raw (natToBytes IDLength 5))], [], []⟩

/-- Witness for C4. -/
theorem c4_duplicate_create_rejected_witness :
    I1 c4Tx ∧
    CreateBucket 0 9 c4Tx ⟨0, 1, .user, "m", "", 0, 0, 0⟩ =
      (c4Tx, .error (.alreadyExists "m")) :=
  ⟨by decide,
   c4_duplicate_create_rejected c4Tx 0 9 ⟨5, 1, .user, "m", "", 0, 0, 0⟩
     ⟨0, 1, .user, "m", "", 0, 0, 0⟩ 5 (by decide) rfl rfl rfl rfl rfl (by decide)⟩

/-! ### Claim C5 -/

/-- **C5**: an `UpdateBucket` whose patch renames a System-type bucket
fails with the forbidden error and returns the transaction completely
unchanged. -/
theorem c5_system_rename_forbidden (s : Tx) (now id : Nat) (upd : BucketUpdate)
    (b0 : Bucket) (n' : String)
    (hget : GetBucket s id = .ok b0) (hsys : b0.btype = .system)
    (hn : upd.name = some n') (hdiff : b0.name ≠ n') :
    UpdateBucket now s id upd = (s, .error .forbidden) := by
  have hid : id ≠ 0 := (GetBucket_ok_iff.1 hget).1
  unfold UpdateBucket
  rw [idEncode_of_ne hid, hget, hn]
  show (if b0.name ≠ n' then
      updateRename s (natToBytes IDLength id) { b0 with updatedAt := now } n' upd
    else updateFinish s (natToBytes IDLength id) { b0 with updatedAt := now } upd) = _
  rw [if_pos hdiff]
  unfold updateRename
  rw [if_pos hsys]

/-- The concrete store of the C5 witness: a stored System bucket. -/
def c5Tx : Tx :=
  ⟨[(natToBytes IDLength 5, .doc ⟨5, 1, .system, "_tasks", "", 0, 0, 0⟩)],
   [(ikeyB 1 "_tasks", .raw (natToBytes IDLength 5))], [], []⟩

/-- Witness for C5. -/
theorem c5_system_rename_forbidden_witness :
    UpdateBucket 3 c5Tx 5 ⟨some "x", none, none⟩ = (c5Tx, .error .forbidden) :=
  c5_system_rename_forbidden c5Tx 3 5 ⟨some "x", none, none⟩
    ⟨5, 1, .system, "_tasks", "", 0, 0, 0⟩ "x" rfl rfl rfl (by decide)

/-! ### Claim C6 -/

/-- **C6**: on an index miss, `GetBucketByName` synthesizes the fixed
System record for each of the two reserved names — with the fixed
globally-reserved identifier and retention period and the requested
organization — and fails by name for any other name. The operation is
read-only by construction: it returns no transaction state and performs
no `kvPut`/`kvDelete`. -/
theorem c6_system_bucket_synthesis (s : Tx) (o : Nat) (n : String)
    (ho : o ≠ 0) (hmiss : kvGet s.index s.iFaults (ikeyB o n) = .error .notFound) :
    (n = TasksSystemBucketName → GetBucketByName s o n = .ok (tasksSystemBucket o)) ∧
    (n = MonitoringSystemBucketName →
      GetBucketByName s o n = .ok (monitoringSystemBucket o)) ∧
    (n ≠ TasksSystemBucketName → n ≠ MonitoringSystemBucketName →
      GetBucketByName s o n = .error (.notFoundByName n)) := by
  refine ⟨?_, ?_, ?_⟩
  · intro h1
    subst h1
    exact GetBucketByName_tasks ho hmiss
  · intro h2
    subst h2
    exact GetBucketByName_monitoring ho hmiss
  · intro h1 h2
    exact GetBucketByName_miss ho hmiss h1 h2

/-- Witness for C6 on the empty store: organization 1 owns no buckets
at all, yet both reserved names synthesize, and another name fails. -/
theorem c6_system_bucket_synthesis_witness :
    GetBucketByName (⟨[], [], [], []⟩ : Tx) 1 "_tasks" = .ok (tasksSystemBucket 1) ∧
    GetBucketByName (⟨[], [], [], []⟩ : Tx) 1 "_monitoring" = .ok (monitoringSystemBucket 1) ∧
    GetBucketByName (⟨[], [], [], []⟩ : Tx) 1 "other" = .error (.notFoundByName "other") :=
  ⟨(c6_system_bucket_synthesis (⟨[], [], [], []⟩ : Tx) 1 "_tasks" (by decide) rfl).1 rfl,
   (c6_system_bucket_synthesis (⟨[], [], [], []⟩ : Tx) 1 "_monitoring" (by decide) rfl).2.1 rfl,
   (c6_system_bucket_synthesis (⟨[], [], [], []⟩ : Tx) 1 "other" (by decide) rfl).2.2
     (by decide) (by decide)⟩

/-! ### Claim C7 -/

/-- A store holding a User bucket named `_tasks`, reached by running
`CreateBucket` itself (nothing stops a user bucket from taking a
reserved name). -/
def c7Tx : Tx :=
  (CreateBucket 0 5 (⟨[], [], [], []⟩ : Tx) ⟨0, 1, .user, "_tasks", "", 0, 0, 0⟩).1

/-- **C7 counterexample**: after deleting the stored bucket named
`_tasks`, `GetBucketByName` does not fail NotFoundByName — the index
miss triggers system-bucket synthesis instead. -/
theorem c7_counterexample :
    I1 c7Tx ∧
    GetBucket c7Tx 5 = .ok ⟨5, 1, .user, "_tasks", "", 0, 0, 0⟩ ∧
    (DeleteBucket c7Tx 5).2 = .ok () ∧
    GetBucketByName (DeleteBucket c7Tx 5).1 1 "_tasks" = .ok (tasksSystemBucket 1) ∧
    GetBucketByName (DeleteBucket c7Tx 5).1 1 "_tasks" ≠
      .error (.notFoundByName "_tasks") := by
  refine ⟨by decide, rfl, rfl, rfl, ?_⟩
  intro hc
  have h0 : GetBucketByName (DeleteBucket c7Tx 5).1 1 "_tasks" =
      .ok (tasksSystemBucket 1) := rfl
  exact Except.noConfusion (h0.symm.trans hc)

/-- **C7** (amended): after a successful `DeleteBucket` of the stored
bucket `(X, o, n)`, `GetBucket(X)` fails NotFound and the index entry
for `(o, n)` is gone; `GetBucketByName(o, n)` fails NotFoundByName
provided `n` is not one of the two reserved system-bucket names (for a
reserved name the miss synthesizes a System bucket instead). -/
theorem c7_delete_postconditions (s : Tx) (id : Nat) (b0 : Bucket)
    (hI : I1 s) (hif : s.iFaults = [])
    (hget : GetBucket s id = .ok b0) :
    (DeleteBucket s id).2 = .ok () ∧
    GetBucket (DeleteBucket s id).1 id = .error .notFound ∧
    kvFind (DeleteBucket s id).1.index (ikeyB b0.orgID b0.name) = none ∧
    (b0.name ≠ TasksSystemBucketName → b0.name ≠ MonitoringSystemBucketName →
      GetBucketByName (DeleteBucket s id).1 b0.orgID b0.name =
        .error (.notFoundByName b0.name)) := by
  obtain ⟨hid, hbf, hOld⟩ := GetBucket_ok_iff.1 hget
  obtain ⟨h1, h2, h3, h4⟩ := I1_find_doc hI hOld
  have hD := DeleteBucket_eq hget h2
  rw [hD]
  refine ⟨rfl, ?_, ?_, ?_⟩
  · refine GetBucket_eq_notFound hid ?_ ?_
    · show natToBytes IDLength id ∉ s.bFaults
      exact hbf
    · show kvFind (kvDelete s.buckets (natToBytes IDLength id))
        (natToBytes IDLength id) = none
      rw [kvFind_kvDelete, if_pos rfl]
  · show kvFind (kvDelete s.index (ikeyB b0.orgID b0.name))
      (ikeyB b0.orgID b0.name) = none
    rw [kvFind_kvDelete, if_pos rfl]
  · intro ht hm
    refine GetBucketByName_miss h2 ?_ ht hm
    rw [kvGet_notFound_iff]
    constructor
    · show ikeyB b0.orgID b0.name ∉ s.iFaults
      rw [hif]
      simp
    · show kvFind (kvDelete s.index (ikeyB b0.orgID b0.name))
        (ikeyB b0.orgID b0.name) = none
      rw [kvFind_kvDelete, if_pos rfl]

/-- The concrete store of the C7 witness. -/
def c7wTx : Tx :=
  ⟨[(natToBytes IDLength 5, .doc ⟨5, 1, .user, "m", "", 0, 0, 0⟩)],
   [(ikeyB 1 "m", .raw (natToBytes IDLength 5))], [], []⟩

/-- Witness for the amended C7. -/
theorem c7_delete_postconditions_witness :
    (DeleteBucket c7wTx 5).2 = .ok () ∧
    GetBucket (DeleteBucket c7wTx 5).1 5 = .error .notFound ∧
    GetBucketByName (DeleteBucket c7wTx 5).1 1 "m" = .error (.notFoundByName "m") :=
  ⟨(c7_delete_postconditions c7wTx 5 ⟨5, 1, .user, "m", "", 0, 0, 0⟩
      (by decide) rfl rfl).1,
   (c7_delete_postconditions c7wTx 5 ⟨5, 1, .user, "m", "", 0, 0, 0⟩
      (by decide) rfl rfl).2.1,
   (c7_delete_postconditions c7wTx 5 ⟨5, 1, .user, "m", "", 0, 0, 0⟩
      (by decide) rfl rfl).2.2.2 (by decide) (by decide)⟩

/-! ### Claim C8 -/

/-- **C8 counterexample**: with `Name` set and an *invalid* (zero)
`OrganizationID` set, `ListBuckets` does not fail with the
invalid-list-request error — the guard requires a *valid* organization
ID, so the call falls through to the organization path and fails with
the identifier-encoding error instead. -/
theorem c8_counterexample :
    ListBuckets (⟨[], [], [], []⟩ : Tx) ⟨some "x", some 0⟩ [] ≠ .error .invalidRequest ∧
    ListBuckets (⟨[], [], [], []⟩ : Tx) ⟨some "x", some 0⟩ [] = .error .invalid := by
  have h : ListBuckets (⟨[], [], [], []⟩ : Tx) ⟨some "x", some 0⟩ [] = .error .invalid := rfl
  refine ⟨?_, h⟩
  rw [h]
  intro hc
  exact absurd (Except.error.inj hc) (by decide)

/-- **C8** (amended): with both `Name` and `OrganizationID` set,
`ListBuckets` fails with InvalidRequest and returns no results whenever
the organization ID is a valid identifier; when it is the invalid zero
identifier the call still fails and returns no results, but with the
invalid-identifier error produced while building the index key. -/
theorem c8_list_filter_rejection (s : Tx) (o : Nat) (n : String) (opts : List FindOptions) :
    (o ≠ 0 → ListBuckets s ⟨some n, some o⟩ opts = .error .invalidRequest) ∧
    (o = 0 → ListBuckets s ⟨some n, some o⟩ opts = .error .invalid) := by
  constructor
  · intro ho
    unfold ListBuckets
    rw [if_pos ?_]
    constructor
    · show idValid o = true
      simpa [idValid] using ho
    · simp
  · intro ho
    subst ho
    unfold ListBuckets
    rw [if_neg ?_]
    · exact listBucketsByOrg_invalid s _
    · rintro ⟨hc, -⟩
      have hc' : idValid 0 = true := hc
      simp [idValid] at hc'

/-- Witness for the amended C8. -/
theorem c8_list_filter_rejection_witness :
    ListBuckets (⟨[], [], [], []⟩ : Tx) ⟨some "x", some 1⟩ [] = .error .invalidRequest ∧
    ListBuckets (⟨[], [], [], []⟩ : Tx) ⟨some "x", some 0⟩ [] = .error .invalid :=
  ⟨(c8_list_filter_rejection (⟨[], [], [], []⟩ : Tx) 1 "x" []).1 (by decide),
   (c8_list_filter_rejection (⟨[], [], [], []⟩ : Tx) 0 "x" []).2 rfl⟩

end BucketStore
